import Mathlib

/-!
Verification development for the `complexible` Rust crate
(`src/complex_numbers/{mod.rs, angle.rs, z.rs}`).

The crate works over `f64`.  We embed `f64` shallowly as the type `Fl`
below: an exact real payload (`Fl.fin`) together with the IEEE 754
special values `+∞`, `-∞` and `NaN`.  Arithmetic on `Fl` follows the
IEEE 754 special-value rules (propagation of NaN, signed infinities,
division by zero, `sqrt`/`ln` of non-positive numbers, ...), while the
real payloads are exact: floating-point rounding error is idealized
away, and the negative zero `-0.0` is identified with `0.0`.  The
primitive `f64::atan2(y, x)` is embedded as the argument of the complex
number `x + y·i` (`Complex.arg`), which is the standard two-argument
arctangent convention with range `(-π, π]`, extended to the IEEE special
values by the C99/IEEE rules.
-/

noncomputable section

/-- Idealized `f64`: an exact real payload or one of the IEEE 754
special values `+∞` (`pinf`), `-∞` (`ninf`) and `NaN` (`nan`).
The negative zero is identified with zero. -/
inductive Fl where
  | fin : ℝ → Fl
  | pinf : Fl
  | ninf : Fl
  | nan : Fl

/-- IEEE negation of an `f64`. -/
def Fl.neg : Fl → Fl
  | .fin a => .fin (-a)
  | .pinf => .ninf
  | .ninf => .pinf
  | .nan => .nan

/-- IEEE addition of two `f64` values: finite payloads add exactly,
`NaN` propagates, `(+∞) + (-∞) = NaN`. -/
def Fl.add : Fl → Fl → Fl
  | .nan, _ => .nan
  | _, .nan => .nan
  | .fin a, .fin b => .fin (a + b)
  | .fin _, .pinf => .pinf
  | .fin _, .ninf => .ninf
  | .pinf, .fin _ => .pinf
  | .ninf, .fin _ => .ninf
  | .pinf, .pinf => .pinf
  | .ninf, .ninf => .ninf
  | .pinf, .ninf => .nan
  | .ninf, .pinf => .nan

/-- IEEE subtraction, `x - y = x + (-y)` exactly as in IEEE 754. -/
def Fl.sub (x y : Fl) : Fl := Fl.add x (Fl.neg y)

/-- IEEE multiplication: finite payloads multiply exactly, `NaN`
propagates, `0 · ∞ = NaN`, infinities follow the sign rules. -/
def Fl.mul : Fl → Fl → Fl
  | .nan, _ => .nan
  | _, .nan => .nan
  | .fin a, .fin b => .fin (a * b)
  | .fin a, .pinf => if 0 < a then .pinf else if a < 0 then .ninf else .nan
  | .fin a, .ninf => if 0 < a then .ninf else if a < 0 then .pinf else .nan
  | .pinf, .fin b => if 0 < b then .pinf else if b < 0 then .ninf else .nan
  | .ninf, .fin b => if 0 < b then .ninf else if b < 0 then .pinf else .nan
  | .pinf, .pinf => .pinf
  | .pinf, .ninf => .ninf
  | .ninf, .pinf => .ninf
  | .ninf, .ninf => .pinf

/-- IEEE division: `a / 0` is `NaN` for `a = 0` and a signed infinity
otherwise, finite `/ ∞` is `0`, `∞ / ∞` is `NaN`, `NaN` propagates. -/
def Fl.div : Fl → Fl → Fl
  | .nan, _ => .nan
  | _, .nan => .nan
  | .fin a, .fin b =>
      if b = 0 then (if a = 0 then .nan else if 0 < a then .pinf else .ninf)
      else .fin (a / b)
  | .fin _, .pinf => .fin 0
  | .fin _, .ninf => .fin 0
  | .pinf, .fin b => if b < 0 then .ninf else .pinf
  | .ninf, .fin b => if b < 0 then .pinf else .ninf
  | .pinf, .pinf => .nan
  | .pinf, .ninf => .nan
  | .ninf, .pinf => .nan
  | .ninf, .ninf => .nan

/-- IEEE square root (`f64::sqrt`): `NaN` on negative arguments,
`sqrt (+∞) = +∞`. -/
def Fl.sqrt : Fl → Fl
  | .fin a => if a < 0 then .nan else .fin (Real.sqrt a)
  | .pinf => .pinf
  | .ninf => .nan
  | .nan => .nan

/-- IEEE sine (`f64::sin`): `NaN` on infinite arguments. -/
def Fl.sin : Fl → Fl
  | .fin a => .fin (Real.sin a)
  | _ => .nan

/-- IEEE cosine (`f64::cos`): `NaN` on infinite arguments. -/
def Fl.cos : Fl → Fl
  | .fin a => .fin (Real.cos a)
  | _ => .nan

/-- IEEE natural logarithm (`f64::ln`): `ln 0 = -∞`, `NaN` on negative
arguments, `ln (+∞) = +∞`. -/
def Fl.ln : Fl → Fl
  | .fin a => if a < 0 then .nan else if a = 0 then .ninf else .fin (Real.log a)
  | .pinf => .pinf
  | .ninf => .nan
  | .nan => .nan

/-- IEEE base-10 logarithm (`f64::log10`), with the same special cases
as `Fl.ln`. -/
def Fl.log10 : Fl → Fl
  | .fin a => if a < 0 then .nan else if a = 0 then .ninf else .fin (Real.logb 10 a)
  | .pinf => .pinf
  | .ninf => .nan
  | .nan => .nan

/-- `f64::log(self, base)`, which the Rust standard library computes as
`self.ln() / base.ln()`. -/
def Fl.logBase (x base : Fl) : Fl := Fl.div (Fl.ln x) (Fl.ln base)

/-- IEEE power (`f64::powf`), per the C99/IEEE `pow` rules:
`x ^ 0 = 1` and `1 ^ y = 1` always (even for `NaN`), `0 ^ y` is `0` or
`+∞` by the sign of `y`, a negative base demands an integer exponent
(otherwise `NaN`), infinities follow the magnitude-comparison rules.
Negative-zero results are identified with `0`. -/
def Fl.powf : Fl → Fl → Fl
  | .fin a, .fin b =>
      if b = 0 then .fin 1
      else if a = 1 then .fin 1
      else if a = 0 then (if 0 < b then .fin 0 else .pinf)
      else if 0 < a then .fin (a ^ b)
      else if (⌊b⌋ : ℝ) = b then .fin (a ^ ⌊b⌋) else .nan
  | .fin a, .pinf =>
      if a = 1 ∨ a = -1 then .fin 1
      else if -1 < a ∧ a < 1 then .fin 0 else .pinf
  | .fin a, .ninf =>
      if a = 1 ∨ a = -1 then .fin 1
      else if -1 < a ∧ a < 1 then .pinf else .fin 0
  | .fin a, .nan => if a = 1 then .fin 1 else .nan
  | .pinf, .fin b => if b = 0 then .fin 1 else if 0 < b then .pinf else .fin 0
  | .ninf, .fin b =>
      if b = 0 then .fin 1
      else if 0 < b then (if (⌊b⌋ : ℝ) = b ∧ ⌊b⌋ % 2 = 1 then .ninf else .pinf)
      else .fin 0
  | .pinf, .pinf => .pinf
  | .pinf, .ninf => .fin 0
  | .ninf, .pinf => .pinf
  | .ninf, .ninf => .fin 0
  | .pinf, .nan => .nan
  | .ninf, .nan => .nan
  | .nan, .fin b => if b = 0 then .fin 1 else .nan
  | .nan, .pinf => .nan
  | .nan, .ninf => .nan
  | .nan, .nan => .nan

/-- `f64::atan2`: `y.atan2 x` is the angle of the point `(x, y)`.  For
finite arguments this is the argument of the complex number `x + y·i`
(the standard `atan2` convention, range `(-π, π]`); the infinite and
`NaN` cases follow the C99/IEEE rules (with negative zero identified
with zero, so `atan2 0 x = 0` for `x = +∞` and `π` for `x` finite
negative or `-∞`). -/
def Fl.atan2 : Fl → Fl → Fl
  | .nan, _ => .nan
  | _, .nan => .nan
  | .fin b, .fin a => .fin (Complex.arg ⟨a, b⟩)
  | .pinf, .fin _ => .fin (Real.pi / 2)
  | .ninf, .fin _ => .fin (-(Real.pi / 2))
  | .fin _, .pinf => .fin 0
  | .fin b, .ninf => if b < 0 then .fin (-Real.pi) else .fin Real.pi
  | .pinf, .pinf => .fin (Real.pi / 4)
  | .pinf, .ninf => .fin (3 * Real.pi / 4)
  | .ninf, .pinf => .fin (-(Real.pi / 4))
  | .ninf, .ninf => .fin (-(3 * Real.pi / 4))

/-- `f64::round`: rounding to the nearest integer, ties away from zero
(Mathlib's `round` rounds ties up, so the negative branch is mirrored). -/
def rustRound (x : ℝ) : ℝ := if x < 0 then -((round (-x) : ℤ) : ℝ) else ((round x : ℤ) : ℝ)

/-- `f64::round` lifted to `Fl`: infinities and `NaN` are fixed points. -/
def Fl.roundF : Fl → Fl
  | .fin a => .fin (rustRound a)
  | .pinf => .pinf
  | .ninf => .ninf
  | .nan => .nan

/-- The IEEE `==` comparison on `f64`: equal payloads or equal
infinities; any comparison involving `NaN` is false. -/
def Fl.ieeeEq : Fl → Fl → Prop
  | .fin a, .fin b => a = b
  | .pinf, .pinf => True
  | .ninf, .ninf => True
  | _, _ => False

/-- A non-finite `f64`: an infinity or `NaN`. -/
def Fl.nonFinite (x : Fl) : Prop := x = Fl.pinf ∨ x = Fl.ninf ∨ x = Fl.nan

/-- `angle.rs`: `Radian` — an angle value in radians. -/
structure Radian where
  value : Fl

/-- `angle.rs`: `Degree` — an angle value in degrees. -/
structure Degree where
  value : Fl

/-- `angle.rs`: `degreesto_radians(d) = d * (PI / 180.0)`. -/
def degreesto_radians (d : Fl) : Radian := ⟨Fl.mul d (Fl.fin (Real.pi / 180))⟩

/-- `angle.rs`: `radianto_degrees(r) = r * (180.0 / PI)`. -/
def radianto_degrees (r : Fl) : Degree := ⟨Fl.mul r (Fl.fin (180 / Real.pi))⟩

/-- `angle.rs`: `Degree::to_radians`. -/
def Degree.to_radians (d : Degree) : Radian := degreesto_radians d.value

/-- `angle.rs`: `Radian::to_degrees`. -/
def Radian.to_degrees (r : Radian) : Degree := radianto_degrees r.value

/-- `mod.rs`: `Angle` — an angle stored in both degrees (`d`) and
radians (`r`). -/
structure Angle where
  d : Degree
  r : Radian

/-- `mod.rs`: `Angle::from_degrees` — stores the given degrees and
derives the radians. -/
def Angle.from_degrees (deg : Fl) : Angle :=
  let d : Degree := ⟨deg⟩
  let r := d.to_radians
  ⟨d, r⟩

/-- `mod.rs`: `Angle::from_radians` — stores the given radians and
derives the degrees. -/
def Angle.from_radians (rad : Fl) : Angle :=
  let r : Radian := ⟨rad⟩
  let d := r.to_degrees
  ⟨d, r⟩

/-- `mod.rs`: `impl Clone for Angle` — rebuilds the angle from its
degree value via `Angle::from_degrees`. -/
def Angle.clone (a : Angle) : Angle := Angle.from_degrees a.d.value

/-- `z.rs`: `CartesianComplexNumber` — a complex number as
(real, imaginary). -/
structure CartesianComplexNumber where
  real : Fl
  imaginary : Fl

/-- `z.rs`: `PolarComplexNumber` — a complex number as
(magnitude, angle). -/
structure PolarComplexNumber where
  magnitude : Fl
  angle : Angle

/-- `z.rs`: `CartesianComplexNumber::to_polar` — magnitude
`sqrt(real² + imaginary²)` (the source computes the squares with
`powi(2)`, i.e. self-multiplication) and angle
`Angle::from_radians(imaginary.atan2(real))`. -/
def CartesianComplexNumber.to_polar (c : CartesianComplexNumber) : PolarComplexNumber :=
  let magnitude := Fl.sqrt (Fl.add (Fl.mul c.real c.real) (Fl.mul c.imaginary c.imaginary))
  let angle := Angle.from_radians (Fl.atan2 c.imaginary c.real)
  ⟨magnitude, angle⟩

/-- `z.rs`: `PolarComplexNumber::to_cartesian` — with `r` the stored
radian value, `real = magnitude * cos r` and
`imaginary = magnitude * sin r`. -/
def PolarComplexNumber.to_cartesian (p : PolarComplexNumber) : CartesianComplexNumber :=
  let r := p.angle.r.value
  let real := Fl.mul p.magnitude (Fl.cos r)
  let imaginary := Fl.mul p.magnitude (Fl.sin r)
  ⟨real, imaginary⟩

/-- `mod.rs`: `ComplexNumber` — both representations, computed from
each other at construction. -/
structure ComplexNumber where
  cartesian : CartesianComplexNumber
  polar : PolarComplexNumber

/-- `mod.rs`: `round_five_zeros(n) = (n * 100000).round() / 100000`. -/
def round_five_zeros (n : Fl) : Fl :=
  Fl.div (Fl.roundF (Fl.mul n (Fl.fin 100000))) (Fl.fin 100000)

/-- `mod.rs`: `round_three_zeros(n) = (n * 1000).round() / 1000`. -/
def round_three_zeros (n : Fl) : Fl :=
  Fl.div (Fl.roundF (Fl.mul n (Fl.fin 1000))) (Fl.fin 1000)

/-- `mod.rs`: `ComplexNumber::from_cartesian` — stores the Cartesian
form and derives the polar form. -/
def ComplexNumber.from_cartesian (real imaginary : Fl) : ComplexNumber :=
  let cartesian : CartesianComplexNumber := ⟨real, imaginary⟩
  let polar := cartesian.to_polar
  ⟨cartesian, polar⟩

/-- `mod.rs`: `ComplexNumber::from_polar` — stores the polar form and
derives the Cartesian form. -/
def ComplexNumber.from_polar (magnitude : Fl) (angle : Angle) : ComplexNumber :=
  let polar : PolarComplexNumber := ⟨magnitude, angle⟩
  let cartesian := polar.to_cartesian
  ⟨cartesian, polar⟩

/-- `mod.rs`: `ComplexNumber::from_real(r) = from_cartesian(r, 0.0)`. -/
def ComplexNumber.from_real (real : Fl) : ComplexNumber :=
  ComplexNumber.from_cartesian real (Fl.fin 0)

/-- `mod.rs`: `ComplexNumber::abs` — the stored polar magnitude. -/
def ComplexNumber.abs (z : ComplexNumber) : Fl := z.polar.magnitude

/-- `mod.rs`: `ComplexNumber::angle_in_rads` — the stored radian value
passed through `round_five_zeros`. -/
def ComplexNumber.angle_in_rads (z : ComplexNumber) : Fl :=
  round_five_zeros z.polar.angle.r.value

/-- `mod.rs`: `ComplexNumber::angle_in_degs` — the stored degree value
passed through `round_three_zeros`. -/
def ComplexNumber.angle_in_degs (z : ComplexNumber) : Fl :=
  round_three_zeros z.polar.angle.d.value

/-- `mod.rs`: `ComplexNumber::angle_in_angle` — a clone of the stored
angle. -/
def ComplexNumber.angle_in_angle (z : ComplexNumber) : Angle := z.polar.angle.clone

/-- `mod.rs`: `ComplexNumber::real` — the stored Cartesian real part. -/
def ComplexNumber.real (z : ComplexNumber) : Fl := z.cartesian.real

/-- `mod.rs`: `ComplexNumber::imag` — the stored Cartesian imaginary
part. -/
def ComplexNumber.imag (z : ComplexNumber) : Fl := z.cartesian.imaginary

/-- `mod.rs`: `ComplexNumber::add` — componentwise sum in Cartesian
form, rebuilt with `from_cartesian`. -/
def ComplexNumber.add (z1 z2 : ComplexNumber) : ComplexNumber :=
  ComplexNumber.from_cartesian (Fl.add z1.real z2.real) (Fl.add z1.imag z2.imag)

/-- `mod.rs`: `ComplexNumber::sub` — componentwise difference in
Cartesian form, rebuilt with `from_cartesian`. -/
def ComplexNumber.sub (z1 z2 : ComplexNumber) : ComplexNumber :=
  ComplexNumber.from_cartesian (Fl.sub z1.real z2.real) (Fl.sub z1.imag z2.imag)

/-- `mod.rs`: `ComplexNumber::mul` — magnitude `abs * abs`, angle
`from_radians(angle_in_rads() + angle_in_rads())` (note: the *rounded*
radian accessors), rebuilt with `from_polar`. -/
def ComplexNumber.mul (z1 z2 : ComplexNumber) : ComplexNumber :=
  ComplexNumber.from_polar (Fl.mul z1.abs z2.abs)
    (Angle.from_radians (Fl.add z1.angle_in_rads z2.angle_in_rads))

/-- `mod.rs`: `ComplexNumber::mul_n` — magnitude scaled by `n`, angle
cloned via `angle_in_angle`. -/
def ComplexNumber.mul_n (z : ComplexNumber) (n : Fl) : ComplexNumber :=
  ComplexNumber.from_polar (Fl.mul z.abs n) z.angle_in_angle

/-- `mod.rs`: `ComplexNumber::div` — magnitude `abs / abs`, angle
`from_radians(angle_in_rads() - angle_in_rads())` (the rounded
accessors), rebuilt with `from_polar`. -/
def ComplexNumber.div (z1 z2 : ComplexNumber) : ComplexNumber :=
  ComplexNumber.from_polar (Fl.div z1.abs z2.abs)
    (Angle.from_radians (Fl.sub z1.angle_in_rads z2.angle_in_rads))

/-- `mod.rs`: `ComplexNumber::pow` — magnitude `abs.powf(n)`, angle
`from_radians(angle_in_rads() * n)`. -/
def ComplexNumber.pow (z : ComplexNumber) (n : Fl) : ComplexNumber :=
  ComplexNumber.from_polar (Fl.powf z.abs n)
    (Angle.from_radians (Fl.mul z.angle_in_rads n))

/-- `mod.rs`: `ComplexNumber::nth_root` — magnitude `abs.powf(1.0 / n)`,
angle `from_radians(angle_in_rads() / n)`. -/
def ComplexNumber.nth_root (z : ComplexNumber) (n : Fl) : ComplexNumber :=
  ComplexNumber.from_polar (Fl.powf z.abs (Fl.div (Fl.fin 1) n))
    (Angle.from_radians (Fl.div z.angle_in_rads n))

/-- `mod.rs`: `ComplexNumber::ln` — magnitude `abs.ln()`, angle cloned
via `angle_in_angle`, rebuilt with `from_polar`. -/
def ComplexNumber.ln (z : ComplexNumber) : ComplexNumber :=
  ComplexNumber.from_polar (Fl.ln z.abs) z.angle_in_angle

/-- `mod.rs`: `ComplexNumber::log10` — magnitude `abs.log10()`, angle
cloned via `angle_in_angle`. -/
def ComplexNumber.log10 (z : ComplexNumber) : ComplexNumber :=
  ComplexNumber.from_polar (Fl.log10 z.abs) z.angle_in_angle

/-- `mod.rs`: `ComplexNumber::log` — magnitude `abs.log(arb)`, angle
cloned via `angle_in_angle`. -/
def ComplexNumber.log (z : ComplexNumber) (arb : Fl) : ComplexNumber :=
  ComplexNumber.from_polar (Fl.logBase z.abs arb) z.angle_in_angle

/-- `mod.rs`: the `PartialEq` implementation for `ComplexNumber` —
the five accessor scalars are compared with IEEE `==` after each is
passed through `round_five_zeros`, in the source order
(magnitude, degrees, radians, imaginary, real). -/
def ComplexNumber.eq (z1 z2 : ComplexNumber) : Prop :=
  Fl.ieeeEq (round_five_zeros z1.abs) (round_five_zeros z2.abs) ∧
  Fl.ieeeEq (round_five_zeros z1.angle_in_degs) (round_five_zeros z2.angle_in_degs) ∧
  Fl.ieeeEq (round_five_zeros z1.angle_in_rads) (round_five_zeros z2.angle_in_rads) ∧
  Fl.ieeeEq (round_five_zeros z1.imag) (round_five_zeros z2.imag) ∧
  Fl.ieeeEq (round_five_zeros z1.real) (round_five_zeros z2.real)

/-- The `Angle` values obtainable through the public constructors
`Angle::from_degrees` and `Angle::from_radians`. -/
inductive AngleAPI : Angle → Prop
  | deg (d : Fl) : AngleAPI (Angle.from_degrees d)
  | rad (r : Fl) : AngleAPI (Angle.from_radians r)

/-- The `ComplexNumber` values reachable through the public API: the
three factories (with any factory-built angle) and the arithmetic and
transcendental operations. -/
inductive CNAPI : ComplexNumber → Prop
  | cart (re im : Fl) : CNAPI (ComplexNumber.from_cartesian re im)
  | pol (m : Fl) (a : Angle) : AngleAPI a → CNAPI (ComplexNumber.from_polar m a)
  | ofReal (r : Fl) : CNAPI (ComplexNumber.from_real r)
  | add (z1 z2 : ComplexNumber) : CNAPI z1 → CNAPI z2 → CNAPI (z1.add z2)
  | sub (z1 z2 : ComplexNumber) : CNAPI z1 → CNAPI z2 → CNAPI (z1.sub z2)
  | mul (z1 z2 : ComplexNumber) : CNAPI z1 → CNAPI z2 → CNAPI (z1.mul z2)
  | mul_n (z : ComplexNumber) (n : Fl) : CNAPI z → CNAPI (z.mul_n n)
  | div (z1 z2 : ComplexNumber) : CNAPI z1 → CNAPI z2 → CNAPI (z1.div z2)
  | pow (z : ComplexNumber) (n : Fl) : CNAPI z → CNAPI (z.pow n)
  | nth_root (z : ComplexNumber) (n : Fl) : CNAPI z → CNAPI (z.nth_root n)
  | ln (z : ComplexNumber) : CNAPI z → CNAPI z.ln
  | log10 (z : ComplexNumber) : CNAPI z → CNAPI z.log10
  | log (z : ComplexNumber) (arb : Fl) : CNAPI z → CNAPI (z.log arb)

/-- The dual-representation invariant of `Angle` (the claim C3
equations): the stored radians are the stored degrees times `π/180`,
and the stored degrees are the stored radians times `180/π`, both as
computed by the source conversion functions. -/
def AngleConsistent (a : Angle) : Prop :=
  a.r.value = Fl.mul a.d.value (Fl.fin (Real.pi / 180)) ∧
  a.d.value = Fl.mul a.r.value (Fl.fin (180 / Real.pi))

/-- The dual-representation invariant of `ComplexNumber` (claim C9):
one representation is bit-exactly derived from the other. -/
def CNConsistent (z : ComplexNumber) : Prop :=
  z.polar = z.cartesian.to_polar ∨ z.cartesian = z.polar.to_cartesian

lemma pi_div_180_pos : (0 : ℝ) < Real.pi / 180 := by positivity

lemma d180_div_pi_pos : (0 : ℝ) < 180 / Real.pi := div_pos (by norm_num) Real.pi_pos

lemma ratio_cancel (a : ℝ) : a * (Real.pi / 180) * (180 / Real.pi) = a := by
  have h := Real.pi_ne_zero
  field_simp

lemma ratio_cancel_rev (a : ℝ) : a * (180 / Real.pi) * (Real.pi / 180) = a := by
  have h := Real.pi_ne_zero
  field_simp

lemma flMul_ratio_roundtrip (x : Fl) {c1 c2 : ℝ} (h1 : 0 < c1) (h2 : 0 < c2)
    (h : ∀ a : ℝ, a * c1 * c2 = a) :
    Fl.mul (Fl.mul x (Fl.fin c1)) (Fl.fin c2) = x := by
  cases x with
  | fin a => simp [Fl.mul, h a]
  | pinf => simp [Fl.mul, h1, h2]
  | ninf => simp [Fl.mul, h1, h2]
  | nan => simp [Fl.mul]

lemma angleConsistent_from_degrees (d : Fl) : AngleConsistent (Angle.from_degrees d) := by
  refine ⟨rfl, ?_⟩
  show d = Fl.mul (Fl.mul d (Fl.fin (Real.pi / 180))) (Fl.fin (180 / Real.pi))
  exact (flMul_ratio_roundtrip d pi_div_180_pos d180_div_pi_pos ratio_cancel).symm

lemma angleConsistent_from_radians (r : Fl) : AngleConsistent (Angle.from_radians r) := by
  refine ⟨?_, rfl⟩
  show r = Fl.mul (Fl.mul r (Fl.fin (180 / Real.pi))) (Fl.fin (Real.pi / 180))
  exact (flMul_ratio_roundtrip r d180_div_pi_pos pi_div_180_pos ratio_cancel_rev).symm

lemma angleAPI_consistent {a : Angle} (h : AngleAPI a) : AngleConsistent a := by
  cases h with
  | deg d => exact angleConsistent_from_degrees d
  | rad r => exact angleConsistent_from_radians r

lemma cnAPI_angle_consistent {z : ComplexNumber} (h : CNAPI z) :
    AngleConsistent z.polar.angle := by
  cases h with
  | cart re im => exact angleConsistent_from_radians _
  | pol m a ha => exact angleAPI_consistent ha
  | ofReal r => exact angleConsistent_from_radians _
  | add z1 z2 h1 h2 => exact angleConsistent_from_radians _
  | sub z1 z2 h1 h2 => exact angleConsistent_from_radians _
  | mul z1 z2 h1 h2 => exact angleConsistent_from_radians _
  | mul_n z n h1 => exact angleConsistent_from_degrees _
  | div z1 z2 h1 h2 => exact angleConsistent_from_radians _
  | pow z n h1 => exact angleConsistent_from_radians _
  | nth_root z n h1 => exact angleConsistent_from_radians _
  | ln z h1 => exact angleConsistent_from_degrees _
  | log10 z h1 => exact angleConsistent_from_degrees _
  | log z arb h1 => exact angleConsistent_from_degrees _

lemma cnAPI_consistent {z : ComplexNumber} (h : CNAPI z) : CNConsistent z := by
  cases h with
  | cart re im => exact Or.inl rfl
  | pol m a ha => exact Or.inr rfl
  | ofReal r => exact Or.inl rfl
  | add z1 z2 h1 h2 => exact Or.inl rfl
  | sub z1 z2 h1 h2 => exact Or.inl rfl
  | mul z1 z2 h1 h2 => exact Or.inr rfl
  | mul_n z n h1 => exact Or.inr rfl
  | div z1 z2 h1 h2 => exact Or.inr rfl
  | pow z n h1 => exact Or.inr rfl
  | nth_root z n h1 => exact Or.inr rfl
  | ln z h1 => exact Or.inr rfl
  | log10 z h1 => exact Or.inr rfl
  | log z arb h1 => exact Or.inr rfl

lemma flDiv_zero_nonFinite (x : Fl) : Fl.nonFinite (Fl.div x (Fl.fin 0)) := by
  cases x with
  | fin a =>
    rcases lt_trichotomy a 0 with h | h | h
    · have h1 : ¬ (0 < a) := by linarith
      simp [Fl.div, Fl.nonFinite, h.ne, h1]
    · subst h
      simp [Fl.div, Fl.nonFinite]
    · simp [Fl.div, Fl.nonFinite, h.ne.symm, h]
  | pinf => simp [Fl.div, Fl.nonFinite]
  | ninf => simp [Fl.div, Fl.nonFinite]
  | nan => simp [Fl.div, Fl.nonFinite]

lemma flLn_zero_nonFinite : Fl.nonFinite (Fl.ln (Fl.fin 0)) := by
  simp [Fl.ln, Fl.nonFinite]

/-- C3: every `Angle` observable through the public API — built by
`from_degrees` or `from_radians`, or held inside an API-reachable
`ComplexNumber` — satisfies both conversion equations at once:
stored radians = stored degrees · (π/180) and stored
degrees = stored radians · (180/π). -/
theorem C3_angle_invariant :
    (∀ a : Angle, AngleAPI a → AngleConsistent a) ∧
    (∀ z : ComplexNumber, CNAPI z → AngleConsistent z.polar.angle) :=
  ⟨fun _ h => angleAPI_consistent h, fun _ h => cnAPI_angle_consistent h⟩

/-- Witness for C3 at the concrete angle `from_degrees 45` and the
concrete complex number `from_real 1`. -/
theorem C3_witness :
    AngleConsistent (Angle.from_degrees (Fl.fin 45)) ∧
    AngleConsistent (ComplexNumber.from_real (Fl.fin 1)).polar.angle :=
  ⟨C3_angle_invariant.1 _ (AngleAPI.deg _), C3_angle_invariant.2 _ (CNAPI.ofReal _)⟩

/-- C8: for every API-built `Angle`, `clone` preserves the degree value
exactly, re-derives the radian value by the degree-to-radian conversion,
and that re-derived radian value equals the stored radian value. -/
theorem C8_clone_roundtrip (a : Angle) (h : AngleAPI a) :
    a.clone.d.value = a.d.value ∧
    a.clone.r.value = Fl.mul a.d.value (Fl.fin (Real.pi / 180)) ∧
    a.clone.r.value = a.r.value := by
  refine ⟨rfl, rfl, ?_⟩
  exact (angleAPI_consistent h).1.symm

/-- Witness for C8 at the concrete angle `from_radians 1`. -/
theorem C8_witness :
    (Angle.from_radians (Fl.fin 1)).clone.d.value = (Angle.from_radians (Fl.fin 1)).d.value ∧
    (Angle.from_radians (Fl.fin 1)).clone.r.value
      = Fl.mul (Angle.from_radians (Fl.fin 1)).d.value (Fl.fin (Real.pi / 180)) ∧
    (Angle.from_radians (Fl.fin 1)).clone.r.value = (Angle.from_radians (Fl.fin 1)).r.value :=
  C8_clone_roundtrip _ (AngleAPI.rad _)

/-- C9: every `ComplexNumber` reachable through the public API
satisfies, bit-exactly, one of the two derivations: its polar field is
`to_polar` of its Cartesian field, or its Cartesian field is
`to_cartesian` of its polar field. -/
theorem C9_dual_consistency : ∀ z : ComplexNumber, CNAPI z → CNConsistent z :=
  fun _ h => cnAPI_consistent h

/-- Witness for C9 at the concrete value `from_cartesian 3 4`. -/
theorem C9_witness : CNConsistent (ComplexNumber.from_cartesian (Fl.fin 3) (Fl.fin 4)) :=
  C9_dual_consistency _ (CNAPI.cart _ _)

/-- C6: the arithmetic operations are total functions (their Lean types
return a `ComplexNumber` for every input); at a zero-magnitude divisor
the quotient magnitude is an infinity or `NaN`, and `ln` of a
zero-magnitude number has an infinite (or `NaN`) magnitude, per
IEEE 754, rather than an error. -/
theorem C6_no_error_path :
    (∀ z1 z2 : ComplexNumber, z2.abs = Fl.fin 0 → Fl.nonFinite (z1.div z2).abs) ∧
    (∀ z : ComplexNumber, z.abs = Fl.fin 0 → Fl.nonFinite z.ln.abs) := by
  constructor
  · intro z1 z2 h
    show Fl.nonFinite (Fl.div z1.abs z2.abs)
    rw [h]
    exact flDiv_zero_nonFinite _
  · intro z h
    show Fl.nonFinite (Fl.ln z.abs)
    rw [h]
    exact flLn_zero_nonFinite

/-- Witness for C6: dividing `1` by the zero-magnitude polar value and
taking `ln` of that zero-magnitude value. -/
theorem C6_witness :
    Fl.nonFinite ((ComplexNumber.from_real (Fl.fin 1)).div
      (ComplexNumber.from_polar (Fl.fin 0) (Angle.from_degrees (Fl.fin 0)))).abs ∧
    Fl.nonFinite (ComplexNumber.from_polar (Fl.fin 0) (Angle.from_degrees (Fl.fin 0))).ln.abs :=
  ⟨C6_no_error_path.1 _ _ rfl, C6_no_error_path.2 _ rfl⟩

lemma round5_fin_zero : round_five_zeros (Fl.fin 0) = Fl.fin 0 := by
  norm_num [round_five_zeros, Fl.mul, Fl.roundF, Fl.div, rustRound]

lemma round5_fin_small : round_five_zeros (Fl.fin (1 / 1048576)) = Fl.fin 0 := by
  have h1 : (1 / 1048576 : ℝ) * 100000 = 3125 / 32768 := by norm_num
  have h2 : round ((3125 : ℝ) / 32768) = 0 := by
    rw [round_eq, Int.floor_eq_zero_iff]
    constructor <;> norm_num
  norm_num [round_five_zeros, Fl.mul, Fl.roundF, Fl.div, rustRound, h1, h2]

lemma ieeeEq_round5_self (x : Fl) :
    Fl.ieeeEq (round_five_zeros x) (round_five_zeros x) ↔ x ≠ Fl.nan := by
  cases x with
  | fin a =>
    norm_num [round_five_zeros, Fl.mul, Fl.roundF, Fl.div, Fl.ieeeEq]
    exact fun h => Fl.noConfusion h
  | pinf =>
    norm_num [round_five_zeros, Fl.mul, Fl.roundF, Fl.div, Fl.ieeeEq]
    exact fun h => Fl.noConfusion h
  | ninf =>
    norm_num [round_five_zeros, Fl.mul, Fl.roundF, Fl.div, Fl.ieeeEq]
    exact fun h => Fl.noConfusion h
  | nan => norm_num [round_five_zeros, Fl.mul, Fl.roundF, Fl.div, Fl.ieeeEq]

/-- C1 (amended): `real`, `imag` and `abs` return the stored Cartesian
and polar values unmodified, but `angle_in_rads` returns the stored
radian value rounded to five decimal places and `angle_in_degs` the
stored degree value rounded to three decimal places. -/
theorem C1_accessors (z : ComplexNumber) :
    z.real = z.cartesian.real ∧
    z.imag = z.cartesian.imaginary ∧
    z.abs = z.polar.magnitude ∧
    z.angle_in_rads = round_five_zeros z.polar.angle.r.value ∧
    z.angle_in_degs = round_three_zeros z.polar.angle.d.value :=
  ⟨rfl, rfl, rfl, rfl, rfl⟩

/-- Counterexample to C1 as stated: for the complex number with stored
radian value `2⁻²⁰` (a value exactly representable in `f64`),
`angle_in_rads` returns `0`, not the stored value — rounding is
applied. -/
theorem C1_counterexample :
    (ComplexNumber.from_polar (Fl.fin 1)
        (Angle.from_radians (Fl.fin (1 / 1048576)))).angle_in_rads
      ≠ (ComplexNumber.from_polar (Fl.fin 1)
        (Angle.from_radians (Fl.fin (1 / 1048576)))).polar.angle.r.value := by
  have h1 : (ComplexNumber.from_polar (Fl.fin 1)
      (Angle.from_radians (Fl.fin (1 / 1048576)))).angle_in_rads
      = round_five_zeros (Fl.fin (1 / 1048576)) := rfl
  rw [h1, round5_fin_small]
  intro h
  have := Fl.fin.inj h
  norm_num at this

/-- C2 (amended): `mul` builds the product in polar form with magnitude
the product of the two stored magnitudes, but with angle the sum of the
two angles *as returned by `angle_in_rads`*, i.e. each stored angle
rounded to five decimal places — not the raw stored angles; the
Cartesian form is re-derived from that polar form. -/
theorem C2_mul_polar (z1 z2 : ComplexNumber) :
    (z1.mul z2).polar.magnitude = Fl.mul z1.polar.magnitude z2.polar.magnitude ∧
    (z1.mul z2).polar.angle.r.value
      = Fl.add (round_five_zeros z1.polar.angle.r.value)
          (round_five_zeros z2.polar.angle.r.value) ∧
    (z1.mul z2).cartesian = (z1.mul z2).polar.to_cartesian :=
  ⟨rfl, rfl, rfl⟩

/-- Counterexample to C2 as stated: with stored angles `2⁻²⁰` and `0`,
the product's angle is `0` (the rounded angles are summed), not the sum
`2⁻²⁰` of the stored angles. -/
theorem C2_counterexample :
    ((ComplexNumber.from_polar (Fl.fin 1) (Angle.from_radians (Fl.fin (1 / 1048576)))).mul
        (ComplexNumber.from_polar (Fl.fin 1) (Angle.from_radians (Fl.fin 0)))).polar.angle.r.value
      ≠ Fl.add
        (ComplexNumber.from_polar (Fl.fin 1)
          (Angle.from_radians (Fl.fin (1 / 1048576)))).polar.angle.r.value
        (ComplexNumber.from_polar (Fl.fin 1)
          (Angle.from_radians (Fl.fin 0))).polar.angle.r.value := by
  have h1 : ((ComplexNumber.from_polar (Fl.fin 1)
      (Angle.from_radians (Fl.fin (1 / 1048576)))).mul
        (ComplexNumber.from_polar (Fl.fin 1)
          (Angle.from_radians (Fl.fin 0)))).polar.angle.r.value
      = Fl.add (round_five_zeros (Fl.fin (1 / 1048576))) (round_five_zeros (Fl.fin 0)) := rfl
  rw [h1, round5_fin_small, round5_fin_zero]
  show Fl.fin (0 + 0) ≠ Fl.add (Fl.fin (1 / 1048576)) (Fl.fin 0)
  show Fl.fin (0 + 0) ≠ Fl.fin (1 / 1048576 + 0)
  intro h
  have := Fl.fin.inj h
  norm_num at this

/-- C4: two `ComplexNumber` values are equal under the `PartialEq`
implementation iff the five accessor scalars — magnitude, angle in
degrees, angle in radians, real part, imaginary part — agree under the
IEEE comparison after each is independently rounded to five decimal
places. -/
theorem C4_equality_characterization (z1 z2 : ComplexNumber) :
    z1.eq z2 ↔
      (Fl.ieeeEq (round_five_zeros z1.abs) (round_five_zeros z2.abs) ∧
       Fl.ieeeEq (round_five_zeros z1.angle_in_degs) (round_five_zeros z2.angle_in_degs) ∧
       Fl.ieeeEq (round_five_zeros z1.angle_in_rads) (round_five_zeros z2.angle_in_rads) ∧
       Fl.ieeeEq (round_five_zeros z1.real) (round_five_zeros z2.real) ∧
       Fl.ieeeEq (round_five_zeros z1.imag) (round_five_zeros z2.imag)) := by
  unfold ComplexNumber.eq
  tauto

/-- C10: equality is reflexive exactly on the values none of whose five
compared scalars is `NaN`. -/
theorem C10_reflexivity (z : ComplexNumber) :
    z.eq z ↔
      (z.abs ≠ Fl.nan ∧ z.angle_in_degs ≠ Fl.nan ∧ z.angle_in_rads ≠ Fl.nan ∧
       z.real ≠ Fl.nan ∧ z.imag ≠ Fl.nan) := by
  unfold ComplexNumber.eq
  rw [ieeeEq_round5_self, ieeeEq_round5_self, ieeeEq_round5_self, ieeeEq_round5_self,
    ieeeEq_round5_self]
  tauto

lemma to_polar_fin_magnitude (re im : ℝ) :
    (CartesianComplexNumber.to_polar ⟨Fl.fin re, Fl.fin im⟩).magnitude
      = Fl.fin (Real.sqrt (re * re + im * im)) := by
  have h : ¬ (re * re + im * im < 0) :=
    not_lt.2 (add_nonneg (mul_self_nonneg re) (mul_self_nonneg im))
  simp [CartesianComplexNumber.to_polar, Fl.mul, Fl.add, Fl.sqrt, h]

lemma to_polar_fin_angle (re im : ℝ) :
    (CartesianComplexNumber.to_polar ⟨Fl.fin re, Fl.fin im⟩).angle.r.value
      = Fl.fin (Complex.arg ⟨re, im⟩) := rfl

lemma sqrt_add_sq_eq_cabs (re im : ℝ) :
    Real.sqrt (re * re + im * im) = Complex.abs ⟨re, im⟩ := by
  rw [Complex.abs_apply, Complex.normSq_apply]

lemma cabs_mul_cos_arg (z : ℂ) : Complex.abs z * Real.cos (Complex.arg z) = z.re := by
  by_cases hz : z = 0
  · subst hz; simp
  · rw [Complex.cos_arg hz]
    field_simp [Complex.abs.ne_zero hz]

lemma cabs_mul_sin_arg (z : ℂ) : Complex.abs z * Real.sin (Complex.arg z) = z.im := by
  by_cases hz : z = 0
  · subst hz; simp
  · rw [Complex.sin_arg]
    field_simp [Complex.abs.ne_zero hz]

lemma to_polar_to_cartesian_exact (re im : ℝ) :
    (CartesianComplexNumber.to_polar ⟨Fl.fin re, Fl.fin im⟩).to_cartesian
      = ⟨Fl.fin re, Fl.fin im⟩ := by
  unfold PolarComplexNumber.to_cartesian
  rw [to_polar_fin_magnitude, to_polar_fin_angle, sqrt_add_sq_eq_cabs]
  simp only [Fl.cos, Fl.sin, Fl.mul]
  rw [cabs_mul_cos_arg, cabs_mul_sin_arg]

/-- C5 (amended): `to_polar` returns magnitude
`sqrt(real² + imaginary²)` and an angle whose radian value is
`atan2(imaginary, real)` for every input, and for every *finite*
(real, imaginary) pair that radian value lies in `(-π, π]`. -/
theorem C5_to_polar_spec :
    (∀ c : CartesianComplexNumber,
        c.to_polar.magnitude
          = Fl.sqrt (Fl.add (Fl.mul c.real c.real) (Fl.mul c.imaginary c.imaginary)) ∧
        c.to_polar.angle.r.value = Fl.atan2 c.imaginary c.real) ∧
    (∀ re im : ℝ, ∃ θ : ℝ,
        (CartesianComplexNumber.to_polar ⟨Fl.fin re, Fl.fin im⟩).angle.r.value = Fl.fin θ ∧
        -Real.pi < θ ∧ θ ≤ Real.pi) :=
  ⟨fun _ => ⟨rfl, rfl⟩,
   fun re im => ⟨Complex.arg ⟨re, im⟩, rfl, Complex.neg_pi_lt_arg _, Complex.arg_le_pi _⟩⟩

/-- Counterexample to C5 as stated over all of `f64`: with a `NaN` real
part the returned angle is `NaN`, which does not lie in `(-π, π]`. -/
theorem C5_counterexample :
    ¬ ∃ θ : ℝ,
        (CartesianComplexNumber.to_polar ⟨Fl.nan, Fl.fin 0⟩).angle.r.value = Fl.fin θ ∧
        -Real.pi < θ ∧ θ ≤ Real.pi := by
  rintro ⟨θ, h, -, -⟩
  have h2 : (CartesianComplexNumber.to_polar ⟨Fl.nan, Fl.fin 0⟩).angle.r.value = Fl.nan := rfl
  rw [h2] at h
  exact Fl.noConfusion h

/-- C7: for every finite (real, imaginary) pair, converting to polar
and back to Cartesian reproduces the pair within the equality
tolerance (in the idealized-rounding model the round trip is exact,
so in particular the five-decimal-place roundings agree). -/
theorem C7_round_trip (re im : ℝ) :
    round_five_zeros ((CartesianComplexNumber.to_polar
        ⟨Fl.fin re, Fl.fin im⟩).to_cartesian.real) = round_five_zeros (Fl.fin re) ∧
    round_five_zeros ((CartesianComplexNumber.to_polar
        ⟨Fl.fin re, Fl.fin im⟩).to_cartesian.imaginary) = round_five_zeros (Fl.fin im) := by
  rw [to_polar_to_cartesian_exact]
  exact ⟨rfl, rfl⟩
